import Mathlib

/-!
# nomi dashboard: the synchronisation cycle of `src/src/App.jsx`

A shallow embedding of `fetchAndAnalyze` (App.jsx lines 142-198) and of the
JavaScript built-ins it calls (`Number`, `isNaN`, `parseFloat`,
`RegExp.prototype.exec`), of the effect that schedules it (lines 200-207) and of
the handlers of the guided tour and the favourite stars (lines 68-113),
followed by theorems about the classification of raw readings into the three
chart series, about the state the cycle commits, about the scheduler and about
the presentation state.

Modelling conventions.
* A JavaScript string is a Lean `String`; scanners work on its `List Char`.
  The characters the code inspects (digits, `.`, `°`, `C`, signs, white space)
  are all single UTF-16 code units, so code points and code units agree there.
* A JavaScript number is `JSNum`: `NaN`, the two infinities, or `fin q` where
  the rational `q` stands for the binary64 value nearest to `q`.  Mantissa
  rounding is not modelled (the code never compares two numbers) and the two
  zeros are not told apart; overflow of a literal to an infinity is modelled.
* React state is one record `AppState`; every `setX(v)` overwrites one field.
* The host's timers are a table of registered intervals; the host firing an
  interval is an event, and wall-clock time is not modelled.
-/

set_option autoImplicit false

namespace Nomi

/-! ## JavaScript values -/

/-- A JavaScript Number: NaN, an infinity, or a finite value. -/
inductive JSNum where
  | nan
  | posInf
  | negInf
  | fin (q : ℚ)
  deriving DecidableEq

namespace JSNum

/-- Number.isNaN on a number. -/
def isNaN : JSNum → Bool
  | nan => true
  | _ => false

/-- Number.isFinite on a number. -/
def isFinite : JSNum → Bool
  | fin _ => true
  | _ => false

end JSNum

/-- Smallest magnitude that binary64 round-to-nearest sends to an infinity:
`2^1024 - 2^970`. -/
def overflowThreshold : ℚ := 2 ^ 1024 - 2 ^ 970

/-- The Number value of a mathematical value (ECMA-262 "the Number value for x"),
up to mantissa rounding. -/
def roundToNumber (q : ℚ) : JSNum :=
  if overflowThreshold ≤ |q| then (if q < 0 then JSNum.negInf else JSNum.posInf)
  else JSNum.fin q

/-- Modelled from the spec: the field values of the records of `mockdata.json`
(imported at App.jsx line 3, not part of the sources).  The spec's data model
gives `value: string|number`; the remaining JSON scalars and a missing field
(`undefined`) are included as well.  Arrays and objects as field values are
not modelled. -/
inductive JSValue where
  | undefined
  | null
  | bool (b : Bool)
  | num (x : JSNum)
  | str (s : String)
  deriving DecidableEq

/-! ## String to number: `Number(string)` and `parseFloat` -/

/-- StrWhiteSpaceChar of ECMA-262: WhiteSpace and LineTerminator code points. -/
def isStrWhiteSpaceChar (c : Char) : Bool :=
  let n := c.toNat
  n = 0x09 || n = 0x0A || n = 0x0B || n = 0x0C || n = 0x0D || n = 0x20 || n = 0xA0
    || n = 0x1680 || (0x2000 ≤ n && n ≤ 0x200A) || n = 0x2028 || n = 0x2029
    || n = 0x202F || n = 0x205F || n = 0x3000 || n = 0xFEFF

/-- The regular expression class `\d` (without the unicode flag): `0`..`9`. -/
def isDecimalDigit (c : Char) : Bool :=
  decide (48 ≤ c.toNat) && decide (c.toNat ≤ 57)

/-- Value of a digit in base up to 16, if the character is one. -/
def hexDigitVal (c : Char) : Option Nat :=
  let n := c.toNat
  if 48 ≤ n ∧ n ≤ 57 then some (n - 48)
  else if 97 ≤ n ∧ n ≤ 102 then some (n - 87)
  else if 65 ≤ n ∧ n ≤ 70 then some (n - 55)
  else none

/-- Mathematical value of a run of decimal digits. -/
def digitsVal (ds : List Char) : Nat :=
  ds.foldl (fun n c => 10 * n + (c.toNat - 48)) 0

/-- Value of a run of digits in the given radix; `none` when the run is empty or
holds a character that is not a digit of that radix. -/
def radixVal (radix : Nat) (ds : List Char) : Option Nat :=
  if ds = [] then none
  else ds.foldl
    (fun acc c =>
      match acc, hexDigitVal c with
      | some n, some d => if d < radix then some (radix * n + d) else none
      | _, _ => none)
    (some 0)

/-- A parsed StrDecimalLiteral: `Infinity` with its sign, or a decimal literal
with its sign, the number written by all its digits (the dot removed), the
count of digits after the dot, and its exponent. -/
inductive StrDecimalLiteral where
  | infinity (negative : Bool)
  | decimal (negative : Bool) (digits : Nat) (fracDigits : Nat) (exponent : Int)
  deriving DecidableEq

namespace StrDecimalLiteral

/-- The literal with a leading minus sign. -/
def negate : StrDecimalLiteral → StrDecimalLiteral
  | infinity _ => infinity true
  | decimal _ d f e => decimal true d f e

/-- The mathematical value of a decimal literal. -/
def mathValue (negative : Bool) (digits fracDigits : Nat) (exponent : Int) : ℚ :=
  (if negative then -1 else 1) * ((digits : ℚ) / (10 : ℚ) ^ fracDigits) * (10 : ℚ) ^ exponent

/-- StringNumericValue: the Number a literal denotes. -/
def toNumber : StrDecimalLiteral → JSNum
  | infinity false => JSNum.posInf
  | infinity true => JSNum.negInf
  | decimal n d f e => roundToNumber (mathValue n d f e)

end StrDecimalLiteral

/-- ExponentPart at the head of the input: `e` or `E`, an optional sign and at
least one digit.  Returns the exponent and the unread rest; without an
ExponentPart the exponent is 0 and nothing is read. -/
def scanExponent : List Char → Int × List Char
  | [] => (0, [])
  | c :: rest =>
    if c = 'e' ∨ c = 'E' then
      let signed : Int × List Char :=
        match rest with
        | '+' :: r => (1, r)
        | '-' :: r => (-1, r)
        | _ => (1, rest)
      let ds := signed.2.takeWhile isDecimalDigit
      if ds = [] then (0, c :: rest)
      else (signed.1 * (digitsVal ds : Int), signed.2.dropWhile isDecimalDigit)
    else (0, c :: rest)

/-- The longest prefix of the input that is a StrUnsignedDecimalLiteral
(`Infinity`, `digits . digits? exp?`, `. digits exp?`, `digits exp?`), parsed,
with the unread rest; `none` when no prefix is one. -/
def scanUnsignedDecimal (cs : List Char) : Option (StrDecimalLiteral × List Char) :=
  if "Infinity".toList <+: cs then some (StrDecimalLiteral.infinity false, cs.drop 8)
  else
    let ip := cs.takeWhile isDecimalDigit
    match cs.dropWhile isDecimalDigit with
    | '.' :: r2 =>
      let fp := r2.takeWhile isDecimalDigit
      if ip = [] ∧ fp = [] then none
      else
        let ex := scanExponent (r2.dropWhile isDecimalDigit)
        some (StrDecimalLiteral.decimal false (digitsVal (ip ++ fp)) fp.length ex.1, ex.2)
    | r1 =>
      if ip = [] then none
      else
        let ex := scanExponent r1
        some (StrDecimalLiteral.decimal false (digitsVal ip) 0 ex.1, ex.2)

/-- The longest prefix of the input that is a StrDecimalLiteral (an optional
sign and a StrUnsignedDecimalLiteral). -/
def scanDecimal : List Char → Option (StrDecimalLiteral × List Char)
  | '+' :: r => scanUnsignedDecimal r
  | '-' :: r => (scanUnsignedDecimal r).map (fun p => (p.1.negate, p.2))
  | cs => scanUnsignedDecimal cs

/-- NonDecimalIntegerLiteral: `0x`, `0o`, `0b` (either case) and digits of that
radix for the whole input. -/
def nonDecimalLiteral : List Char → Option Nat
  | '0' :: p :: ds =>
    if p = 'x' ∨ p = 'X' then radixVal 16 ds
    else if p = 'o' ∨ p = 'O' then radixVal 8 ds
    else if p = 'b' ∨ p = 'B' then radixVal 2 ds
    else none
  | _ => none

/-- Removal of leading and trailing StrWhiteSpaceChar. -/
def trimStrWhiteSpace (cs : List Char) : List Char :=
  ((cs.dropWhile isStrWhiteSpaceChar).reverse.dropWhile isStrWhiteSpaceChar).reverse

/-- StringToNumber of ECMA-262: the whole trimmed string must be a
StrNumericLiteral, the empty string counts as 0, anything else is NaN. -/
def stringToNumber (s : String) : JSNum :=
  let t := trimStrWhiteSpace s.toList
  if t = [] then JSNum.fin 0
  else
    match nonDecimalLiteral t with
    | some n => roundToNumber (n : ℚ)
    | none =>
      match scanDecimal t with
      | some (v, []) => v.toNumber
      | _ => JSNum.nan

/-- The global `parseFloat` on a string: leading white space is skipped and the
longest prefix that is a StrDecimalLiteral is converted; NaN when there is none. -/
def parseFloat (s : List Char) : JSNum :=
  match scanDecimal (s.dropWhile isStrWhiteSpaceChar) with
  | some (v, _) => v.toNumber
  | none => JSNum.nan

/-- ToNumber, which is what `Number(v)` computes. -/
def toNumber : JSValue → JSNum
  | .undefined => JSNum.nan
  | .null => JSNum.fin 0
  | .bool true => JSNum.fin 1
  | .bool false => JSNum.fin 0
  | .num x => x
  | .str s => stringToNumber s

/-- The global `isNaN(v)`: ToNumber, then the NaN test. -/
def jsIsNaN (v : JSValue) : Bool := (toNumber v).isNaN

/-- The test `typeof v === "number"`. -/
def typeofIsNumber : JSValue → Bool
  | .num _ => true
  | _ => false

/-- The test `v === s` for a string literal `s`: strict equality, no coercion. -/
def strictEqString (v : JSValue) (s : String) : Bool :=
  match v with
  | .str t => decide (t = s)
  | _ => false

/-! ## The temperature pattern `/([\d.]+)°C/` -/

/-- The character class `[\d.]`. -/
def isDigitOrDot (c : Char) : Bool :=
  isDecimalDigit c || decide (c = '.')

/-- Backtracking of the greedy quantifier `+`: with at most `k` characters of
the class consumed, tries the rest of the pattern (`°C`) after `k` characters,
then after `k - 1`, down to one character.  Returns the capture group. -/
def backtrack (cs : List Char) : Nat → Option (List Char)
  | 0 => none
  | k + 1 =>
    if ['°', 'C'] <+: cs.drop (k + 1) then some (cs.take (k + 1))
    else backtrack cs k

/-- The pattern tried at the head of the input: the class is consumed greedily,
then the matcher backtracks until `°C` follows. -/
def matchAtHead (cs : List Char) : Option (List Char) :=
  backtrack cs (cs.takeWhile isDigitOrDot).length

/-- The capture `match[1]` of `/([\d.]+)°C/.exec(s)`: the pattern is tried at
every start index from 0 upwards (no `g` or `y` flag, so `lastIndex` is unused);
`none` is the `null` result. -/
def regexExec : List Char → Option (List Char)
  | [] => none
  | c :: cs =>
    match matchAtHead (c :: cs) with
    | some cap => some cap
    | none => regexExec cs

/-- The capture of `/([\d.]+)°C/.exec(v)`: `exec` applies ToString to its
argument.  For a number, ToString yields `NaN`, `Infinity` or a string made of
the characters `0`-`9`, `.`, `e`, `+`, `-`; none holds `°`, so the result is
`null` and the digits of Number::toString are not modelled. -/
def tempPatternExec : JSValue → Option (List Char)
  | .str s => regexExec s.toList
  | .undefined => regexExec "undefined".toList
  | .null => regexExec "null".toList
  | .bool true => regexExec "true".toList
  | .bool false => regexExec "false".toList
  | .num _ => none

/-! ## Readings and chart points -/

/-- Modelled from the spec: an entry of the array in `mockdata.json` (not part
of the sources), read through its properties `sensor_type`, `value` and
`timestamp`; a property the entry lacks reads as `undefined`.  A `null` entry,
on which reading a property throws, is not modelled. -/
structure RawReading where
  sensor_type : JSValue
  value : JSValue
  timestamp : JSValue
  deriving DecidableEq

/-- A chart point `{ time, value }`. -/
structure DisplayPoint where
  time : String
  value : JSValue
  deriving DecidableEq

section Classification

/- `label` is the rendering `new Date(ts).toLocaleTimeString([], { hour: '2-digit',
minute: '2-digit' })`, which depends on the host's locale and time zone. -/
variable (label : JSValue → String)

/-- App.jsx lines 149-154: the heart-rate series. -/
def heartData (data : List RawReading) : List DisplayPoint :=
  (data.filter
      (fun d => strictEqString d.sensor_type "heart_rate" && !(toNumber d.value).isNaN)).map
    (fun d => { time := label d.timestamp, value := JSValue.num (toNumber d.value) })

/-- App.jsx lines 156-161: the oxygen series. -/
def oxygen (data : List RawReading) : List DisplayPoint :=
  (data.filter
      (fun d => strictEqString d.sensor_type "oxygen" && !(toNumber d.value).isNaN)).map
    (fun d => { time := label d.timestamp, value := JSValue.num (toNumber d.value) })

/-- App.jsx lines 165-172: the point built from a `temp_humidity` reading,
whose value is `null` when the pattern does not match. -/
def tempPoint (d : RawReading) : DisplayPoint :=
  let val : JSValue :=
    match tempPatternExec d.value with
    | some cap => JSValue.num (parseFloat cap)
    | none => JSValue.null
  { time := label d.timestamp, value := val }

/-- App.jsx lines 163-173: the temperature series. -/
def temp (data : List RawReading) : List DisplayPoint :=
  (((data.filter (fun d => strictEqString d.sensor_type "temp_humidity")).map
      (tempPoint label)).filter
    (fun p => typeofIsNumber p.value && !jsIsNaN p.value))

end Classification

/-! ## State, effects and the cycle `fetchAndAnalyze` -/

/-- A parsed JSON document: what `analyzeRes.json()` resolves to. -/
inductive Json where
  | null
  | bool (b : Bool)
  | num (x : JSNum)
  | str (s : String)
  | arr (items : List Json)
  | obj (fields : List (String × Json))

/-- Modelled from the spec: the content of `mockdata.json` (not part of the
sources), which `fetchAndAnalyze` takes as `data`: an array of readings, or a
JSON document that is not an array (a scalar or an object). -/
inductive Snapshot where
  | readings (rs : List RawReading)
  | scalar (v : JSValue)
  | object (fields : List (String × Json))

/-- The object passed to `JSON.stringify` at App.jsx lines 183-187. -/
structure AnalyzeBody where
  posture : String
  pill_status : String
  sensor_data : Snapshot

/-- The request of App.jsx lines 180-188. -/
structure AnalyzeRequest where
  url : String
  method : String
  contentType : String
  body : AnalyzeBody

/-- The state of `favoritedStars` (App.jsx lines 58-62). -/
structure FavoritedStars where
  heartRate : Bool
  oxygenLevel : Bool
  temperature : Bool
  deriving DecidableEq

/-- The React state of `App` (App.jsx lines 47-62), one field per `useState`. -/
structure AppState where
  sensorData : Snapshot
  aiSummary : Json
  loading : Bool
  heartRateData : List DisplayPoint
  oxygenData : List DisplayPoint
  temperatureData : List DisplayPoint
  showModal : Bool
  tourStep : Option Nat
  showLoadingScreen : Bool
  favoritedStars : FavoritedStars

/-- The initial values given to `useState` (App.jsx lines 47-62). -/
def AppState.initial : AppState where
  sensorData := Snapshot.readings []
  aiSummary := Json.null
  loading := true
  heartRateData := []
  oxygenData := []
  temperatureData := []
  showModal := false
  tourStep := none
  showLoadingScreen := true
  favoritedStars := { heartRate := false, oxygenLevel := false, temperature := false }

/-- What a cycle can throw into its `catch` block. -/
inductive JSError where
  | typeError
  | fetchRejected
  | bodyNotJson
  deriving DecidableEq

/-- Everything a cycle can change: the React state, the requests sent with
`fetch` (oldest first) and the errors written with `console.error`. -/
structure World where
  app : AppState
  requests : List AnalyzeRequest
  console : List JSError

/-- How the reasoning endpoint answers the one request of a cycle: `fetch`
rejects (the endpoint is unreachable), or it resolves to a response with an
HTTP status whose body parses as JSON (`some`) or does not (`none`). -/
inductive AnalyzeOutcome where
  | rejected
  | response (status : Nat) (body : Option Json)

/-- The value `fetch` resolves to. -/
structure Response where
  status : Nat
  body : Option Json

/-- Code that updates the world and may throw. -/
abbrev Async := ExceptT JSError (StateM World)

/-- The setter `setSensorData`. -/
def setSensorData (v : Snapshot) : Async Unit :=
  modify fun w => { w with app := { w.app with sensorData := v } }

/-- The setter `setHeartRateData`. -/
def setHeartRateData (v : List DisplayPoint) : Async Unit :=
  modify fun w => { w with app := { w.app with heartRateData := v } }

/-- The setter `setOxygenData`. -/
def setOxygenData (v : List DisplayPoint) : Async Unit :=
  modify fun w => { w with app := { w.app with oxygenData := v } }

/-- The setter `setTemperatureData`. -/
def setTemperatureData (v : List DisplayPoint) : Async Unit :=
  modify fun w => { w with app := { w.app with temperatureData := v } }

/-- The setter `setAiSummary`. -/
def setAiSummary (v : Json) : Async Unit :=
  modify fun w => { w with app := { w.app with aiSummary := v } }

/-- The setter `setLoading`. -/
def setLoading (v : Bool) : StateM World Unit :=
  modify fun w => { w with app := { w.app with loading := v } }

/-- The call `console.error("Error syncing data:", err)`. -/
def consoleError (err : JSError) : StateM World Unit :=
  modify fun w => { w with console := w.console ++ [err] }

/-- The receiver of `data.filter(...)`: only an array has the method, on any
other document the call throws a TypeError. -/
def Snapshot.asArray : Snapshot → Async (List RawReading)
  | .readings rs => pure rs
  | .scalar _ => throw JSError.typeError
  | .object _ => throw JSError.typeError

/-- The call `fetch(url, init)`: the request is sent, and the promise settles as
the endpoint decides. -/
def fetch (req : AnalyzeRequest) (net : AnalyzeOutcome) : Async Response := do
  modify fun w => { w with requests := w.requests ++ [req] }
  match net with
  | .rejected => throw JSError.fetchRejected
  | .response status body => pure { status := status, body := body }

/-- The call `analyzeRes.json()`. -/
def Response.json (r : Response) : Async Json :=
  match r.body with
  | some j => pure j
  | none => throw JSError.bodyNotJson

/-- The request built at App.jsx lines 180-188. -/
def analyzeRequest (data : Snapshot) : AnalyzeRequest where
  url := "http://127.0.0.1:8000/analyze"
  method := "POST"
  contentType := "application/json"
  body := { posture := "sitting", pill_status := "closed", sensor_data := data }

/-- The `try` block of `fetchAndAnalyze` (App.jsx lines 143-191). -/
def tryBlock (label : JSValue → String) (mockData : Snapshot) (net : AnalyzeOutcome) :
    Async Unit := do
  let data := mockData
  setSensorData data
  let rows ← data.asArray
  let heartData := heartData label rows
  let oxygen := oxygen label rows
  let temp := temp label rows
  setHeartRateData heartData
  setOxygenData oxygen
  setTemperatureData temp
  let analyzeRes ← fetch (analyzeRequest data) net
  let result ← analyzeRes.json
  setAiSummary result

/-- One cycle (App.jsx lines 142-198): the `try` block, the `catch` block that
logs what was thrown, and the `finally` block. -/
def fetchAndAnalyze (label : JSValue → String) (mockData : Snapshot) (net : AnalyzeOutcome) :
    StateM World Unit := do
  match ← (tryBlock label mockData net).run with
  | .error err => consoleError err
  | .ok _ => pure ()
  setLoading false

/-- The world after one completed cycle. -/
def runCycle (label : JSValue → String) (mockData : Snapshot) (net : AnalyzeOutcome)
    (w : World) : World :=
  ((fetchAndAnalyze label mockData net).run w).2

/-- The initial world: the initial React state, nothing sent, nothing logged. -/
def World.initial : World where
  app := AppState.initial
  requests := []
  console := []

/-! ## Vocabulary of the specification -/

/-- The acceptance predicate of the heart-rate series (the callback of the
`filter` at App.jsx line 150). -/
def acceptsHeartRate (d : RawReading) : Bool :=
  strictEqString d.sensor_type "heart_rate" && !(toNumber d.value).isNaN

/-- The acceptance predicate of the oxygen series (the callback of the `filter`
at App.jsx line 157). -/
def acceptsOxygen (d : RawReading) : Bool :=
  strictEqString d.sensor_type "oxygen" && !(toNumber d.value).isNaN

/-- The acceptance predicate of the temperature series: the tag test of line 164
together with what the `filter` of line 173 keeps of the mapped point. -/
def acceptsTemperature (d : RawReading) : Bool :=
  strictEqString d.sensor_type "temp_humidity" &&
    match tempPatternExec d.value with
    | some cap => !(parseFloat cap).isNaN
    | none => false

/-- The point of a heart-rate or oxygen reading (App.jsx lines 151-154). -/
def numberPoint (label : JSValue → String) (d : RawReading) : DisplayPoint :=
  { time := label d.timestamp, value := JSValue.num (toNumber d.value) }

/-- An occurrence of the pattern in `cs` right after the characters `pre`: a
non-empty run `cap` of digits and dots followed by `°C`. -/
def IsMatchAfter (pre cap cs : List Char) : Prop :=
  cap ≠ [] ∧ (∀ c ∈ cap, isDigitOrDot c = true) ∧
    ∃ post, cs = pre ++ cap ++ ['°', 'C'] ++ post

/-- The run `cap` is the leftmost occurrence of the pattern in `cs`. -/
def IsLeftmostMatch (cs cap : List Char) : Prop :=
  ∃ pre, IsMatchAfter pre cap cs ∧
    ∀ pre' cap', IsMatchAfter pre' cap' cs → pre.length ≤ pre'.length

/-- The analysis call fails: the request rejects or the body cannot be read. -/
def AnalyzeOutcome.fails : AnalyzeOutcome → Bool
  | .rejected => true
  | .response _ none => true
  | .response _ (some _) => false

/-- The snapshot is a sequence. -/
def Snapshot.isArray : Snapshot → Bool
  | .readings _ => true
  | .scalar _ => false
  | .object _ => false

/-- One rendering a host can have, used in the concrete instances below: the
hour and minute of a timestamp written `YYYY-MM-DDTHH:MM:SSZ`, as a host in UTC
with a 24-hour locale renders it.  Only meant for timestamps of that form. -/
def sampleLabel : JSValue → String
  | .str s => String.mk ((s.toList.drop 11).take 5)
  | _ => "Invalid Date"

/-- The example input of the specification, with concrete timestamps. -/
def sampleReadings : List RawReading :=
  [ { sensor_type := .str "heart_rate", value := .str "72",
      timestamp := .str "2025-01-01T08:00:00Z" },
    { sensor_type := .str "oxygen", value := .str "n/a",
      timestamp := .str "2025-01-01T08:01:00Z" },
    { sensor_type := .str "temp_humidity", value := .str "36.9°C 40%RH",
      timestamp := .str "2025-01-01T08:02:00Z" } ]

/-- A body a server can send with an error status. -/
def sampleErrorBody : Json :=
  Json.obj [("detail", Json.str "Internal Server Error")]

/-! ## Presentation state: the guided tour and the favourites -/

/-- The value of `tourContent.length`: the array of App.jsx lines 75-91 has three
entries. -/
def tourContentLength : Nat := 3

/-- ToNumber of `tourStep`, which the comparisons `<`, `>` and the operators `+`,
`-` of App.jsx lines 98-107 apply to it: `null` counts as 0. -/
def tourStepToNumber : Option Nat → Nat
  | none => 0
  | some n => n

/-- The setter `setTourStep`; `none` is `null`. -/
def setTourStep (v : Option Nat) (s : AppState) : AppState :=
  { s with tourStep := v }

/-- App.jsx lines 93-95. -/
def startTour (s : AppState) : AppState :=
  setTourStep (some 0) s

/-- App.jsx lines 111-113. -/
def endTour (s : AppState) : AppState :=
  setTourStep none s

/-- App.jsx lines 97-103.  The handler reads the `tourStep` of the render that
created it; here it is applied to the current state. -/
def nextStep (s : AppState) : AppState :=
  if tourStepToNumber s.tourStep < tourContentLength - 1 then
    setTourStep (some (tourStepToNumber s.tourStep + 1)) s
  else
    endTour s

/-- App.jsx lines 105-109, applied to the current state like `nextStep`. -/
def prevStep (s : AppState) : AppState :=
  if tourStepToNumber s.tourStep > 0 then
    setTourStep (some (tourStepToNumber s.tourStep - 1)) s
  else
    s

/-- The four handlers that change `tourStep`. -/
inductive TourAction where
  | startTour
  | nextStep
  | prevStep
  | endTour
  deriving DecidableEq

/-- The handler an action stands for. -/
def TourAction.apply : TourAction → AppState → AppState
  | .startTour => Nomi.startTour
  | .nextStep => Nomi.nextStep
  | .prevStep => Nomi.prevStep
  | .endTour => Nomi.endTour

/-- The state after a finite sequence of handler calls, first call first. -/
def runTour (actions : List TourAction) (s : AppState) : AppState :=
  actions.foldl (fun st a => a.apply st) s

/-- The step is `null` or an index into `tourContent`. -/
def validTourStep : Option Nat → Bool
  | none => true
  | some n => decide (n < tourContentLength)

/-- The argument of `toggleStar`: its three call sites (App.jsx lines 309, 364
and 419) pass the literals `heartRate`, `oxygenLevel` and `temperature`. -/
inductive CardName where
  | heartRate
  | oxygenLevel
  | temperature
  deriving DecidableEq

/-- The property read `prev[cardName]`. -/
def FavoritedStars.get (f : FavoritedStars) : CardName → Bool
  | .heartRate => f.heartRate
  | .oxygenLevel => f.oxygenLevel
  | .temperature => f.temperature

/-- The object `{ ...prev, [cardName]: v }`. -/
def FavoritedStars.set (f : FavoritedStars) (cardName : CardName) (v : Bool) :
    FavoritedStars :=
  match cardName with
  | .heartRate => { f with heartRate := v }
  | .oxygenLevel => { f with oxygenLevel := v }
  | .temperature => { f with temperature := v }

/-- App.jsx lines 68-73: the updater passed to `setFavoritedStars` is applied to
the current favourites. -/
def toggleStar (cardName : CardName) (s : AppState) : AppState :=
  { s with favoritedStars := s.favoritedStars.set cardName (!s.favoritedStars.get cardName) }

/-! ## The poll scheduler (App.jsx lines 200-207) -/

/-- An interval registered with the host by `setInterval(callback, delay)`.  The
only callback this program registers is `fetchAndAnalyze`. -/
structure Interval where
  handle : Nat
  delay : Nat
  deriving DecidableEq

/-- The host's side of the scheduler: the intervals that are registered, the
handle the next `setInterval` returns, and how many times `fetchAndAnalyze` has
been called. -/
structure Host where
  intervals : List Interval
  nextHandle : Nat
  triggers : Nat

/-- A call of `fetchAndAnalyze`: one trigger of the cycle. -/
def Host.callFetchAndAnalyze (h : Host) : Host :=
  { h with triggers := h.triggers + 1 }

/-- The call `setInterval(fetchAndAnalyze, delay)`: registers an interval and
returns its handle. -/
def Host.setInterval (delay : Nat) (h : Host) : Nat × Host :=
  (h.nextHandle,
    { h with
      intervals := h.intervals ++ [{ handle := h.nextHandle, delay := delay }]
      nextHandle := h.nextHandle + 1 })

/-- The call `clearInterval(handle)`: the interval, if registered, is removed. -/
def Host.clearInterval (handle : Nat) (h : Host) : Host :=
  { h with intervals := h.intervals.filter (fun t => !decide (t.handle = handle)) }

/-- The host fires the interval `handle` once: its callback runs if the interval
is still registered, and nothing happens otherwise. -/
def Host.tick (handle : Nat) (h : Host) : Host :=
  if h.intervals.any (fun t => decide (t.handle = handle)) then h.callFetchAndAnalyze
  else h

/-- The host fires the interval `handle` the given number of times. -/
def Host.ticks (handle : Nat) : Nat → Host → Host
  | 0, h => h
  | n + 1, h => Host.ticks handle n (h.tick handle)

/-- The body of the effect (App.jsx lines 200-204): the cycle is run at once,
then registered to repeat every 30000 ms.  Returns the handle `interval`, which
the cleanup function captures. -/
def pollEffect (h : Host) : Nat × Host :=
  h.callFetchAndAnalyze.setInterval 30000

/-- The cleanup function returned by the effect (App.jsx line 205). -/
def pollCleanup (interval : Nat) (h : Host) : Host :=
  h.clearInterval interval

/-- A Number that is not negative: a finite value that is at least 0, or
+Infinity. -/
def JSNum.isNonNegative : JSNum → Bool
  | .fin q => decide (0 ≤ q)
  | .posInf => true
  | _ => false

/-- A heart-rate reading taken at 08:00:00. -/
def sameMinuteFirst : RawReading :=
  { sensor_type := .str "heart_rate", value := .str "72",
    timestamp := .str "2025-01-01T08:00:00Z" }

/-- A second heart-rate reading, taken thirty seconds later in the same minute. -/
def sameMinuteSecond : RawReading :=
  { sensor_type := .str "heart_rate", value := .str "72",
    timestamp := .str "2025-01-01T08:00:30Z" }

/-! ## Lemmas: numbers -/

theorem roundToNumber_isNaN (q : ℚ) : (roundToNumber q).isNaN = false := by
  unfold roundToNumber
  split
  · split <;> rfl
  · rfl

theorem literal_toNumber_isNaN (v : StrDecimalLiteral) : v.toNumber.isNaN = false := by
  cases v with
  | infinity n => cases n <;> rfl
  | decimal n d f e => exact roundToNumber_isNaN _

theorem roundToNumber_of_small {q : ℚ} (h : |q| < 2 ^ 1023) : roundToNumber q = JSNum.fin q := by
  unfold roundToNumber
  rw [if_neg]
  unfold overflowThreshold
  have : (2 : ℚ) ^ 1023 < 2 ^ 1024 - 2 ^ 970 := by norm_num
  exact not_le.2 (lt_trans h this)

theorem stringToNumber_of_decimal (s : String) (t : List Char) (lit : StrDecimalLiteral)
    (h1 : trimStrWhiteSpace s.toList = t) (h0 : t ≠ []) (h2 : nonDecimalLiteral t = none)
    (h3 : scanDecimal t = some (lit, [])) : stringToNumber s = lit.toNumber := by
  unfold stringToNumber
  simp only [h1, h2, h3, if_neg h0]

theorem stringToNumber_72 : stringToNumber "72" = JSNum.fin 72 := by
  rw [stringToNumber_of_decimal "72" ['7', '2'] (.decimal false 72 0 0)
    (by decide) (by decide) (by decide) (by decide)]
  simp only [StrDecimalLiteral.toNumber, StrDecimalLiteral.mathValue]
  rw [roundToNumber_of_small (by norm_num)]
  norm_num

theorem stringToNumber_na : stringToNumber "n/a" = JSNum.nan := by decide

theorem stringToNumber_Infinity : stringToNumber "Infinity" = JSNum.posInf := by decide

theorem parseFloat_36_9 : parseFloat ['3', '6', '.', '9'] = JSNum.fin 36.9 := by
  have h1 : scanDecimal (List.dropWhile isStrWhiteSpaceChar ['3', '6', '.', '9'])
      = some (.decimal false 369 1 0, []) := by decide
  unfold parseFloat
  simp only [h1, StrDecimalLiteral.toNumber, StrDecimalLiteral.mathValue]
  rw [roundToNumber_of_small (by norm_num [abs_of_nonneg])]
  norm_num

/-! ## Lemmas: the temperature pattern -/

theorem isDigitOrDot_degree : isDigitOrDot '°' = false := by decide

theorem takeWhile_run (cap rest : List Char) (h : ∀ c ∈ cap, isDigitOrDot c = true) :
    (cap ++ '°' :: rest).takeWhile isDigitOrDot = cap := by
  induction cap with
  | nil => simp [List.takeWhile_cons, isDigitOrDot_degree]
  | cons a t ih =>
    have ha : isDigitOrDot a = true := h a (by simp)
    have ht : ∀ c ∈ t, isDigitOrDot c = true := fun c hc => h c (by simp [hc])
    simp [List.takeWhile_cons, ha, ih ht]

theorem take_takeWhile_length (p : Char → Bool) (cs : List Char) :
    cs.take (cs.takeWhile p).length = cs.takeWhile p := by
  have h := @List.take_left' _ (cs.takeWhile p) (cs.dropWhile p) _ rfl
  rwa [List.takeWhile_append_dropWhile] at h

theorem drop_takeWhile_length (p : Char → Bool) (cs : List Char) :
    cs.drop (cs.takeWhile p).length = cs.dropWhile p := by
  have h := @List.drop_left' _ (cs.takeWhile p) (cs.dropWhile p) _ rfl
  rwa [List.takeWhile_append_dropWhile] at h

theorem not_prefix_inside_run (cs : List Char) (k : Nat)
    (hk : k < (cs.takeWhile isDigitOrDot).length) : ¬ ['°', 'C'] <+: cs.drop k := by
  induction cs generalizing k with
  | nil => simp at hk
  | cons a t ih =>
    by_cases ha : isDigitOrDot a = true
    · cases k with
      | zero =>
        intro h
        rw [List.drop_zero, List.cons_prefix_cons] at h
        rw [← h.1, isDigitOrDot_degree] at ha
        exact Bool.noConfusion ha
      | succ k =>
        rw [List.takeWhile_cons, if_pos ha, List.length_cons] at hk
        simpa using ih k (by omega)
    · rw [List.takeWhile_cons, if_neg ha] at hk
      simp at hk

theorem backtrack_inside_run (cs : List Char) (k : Nat)
    (hk : k < (cs.takeWhile isDigitOrDot).length) : backtrack cs k = none := by
  induction k with
  | zero => rfl
  | succ k ih =>
    rw [backtrack, if_neg (not_prefix_inside_run cs (k + 1) hk)]
    exact ih (by omega)

theorem matchAtHead_eq (cs : List Char) :
    matchAtHead cs =
      if cs.takeWhile isDigitOrDot ≠ [] ∧ ['°', 'C'] <+: cs.dropWhile isDigitOrDot
      then some (cs.takeWhile isDigitOrDot) else none := by
  unfold matchAtHead
  cases hn : (cs.takeWhile isDigitOrDot).length with
  | zero =>
    have : cs.takeWhile isDigitOrDot = [] := List.length_eq_zero.1 hn
    simp [backtrack, this]
  | succ n =>
    have hne : cs.takeWhile isDigitOrDot ≠ [] := by
      intro h; rw [h] at hn; simp at hn
    have hb : backtrack cs n = none := backtrack_inside_run cs n (by omega)
    rw [backtrack, hb, ← hn, take_takeWhile_length, drop_takeWhile_length]
    simp [hne]

theorem matchAtHead_some_iff (cs cap : List Char) :
    matchAtHead cs = some cap ↔ IsMatchAfter [] cap cs := by
  rw [matchAtHead_eq]
  constructor
  · intro h
    split at h
    · rename_i hc
      obtain ⟨hne, post, hpost⟩ := hc
      cases h
      refine ⟨hne, fun c hc => List.mem_takeWhile_imp hc, post, ?_⟩
      rw [List.nil_append, List.append_assoc, hpost, List.takeWhile_append_dropWhile]
    · cases h
  · rintro ⟨hne, hall, post, hcs⟩
    have h1 : cs.takeWhile isDigitOrDot = cap := by
      rw [hcs]; simpa using takeWhile_run cap ('C' :: post) hall
    have h2 : cs.dropWhile isDigitOrDot = '°' :: 'C' :: post := by
      have := List.takeWhile_append_dropWhile isDigitOrDot cs
      rw [h1] at this
      have e : cap ++ cs.dropWhile isDigitOrDot = cap ++ ('°' :: 'C' :: post) := by
        rw [this, hcs]; simp
      exact List.append_cancel_left e
    rw [h1, h2, if_pos ⟨hne, by simp⟩]

theorem isMatchAfter_cons (c : Char) (pre cap cs : List Char) :
    IsMatchAfter (c :: pre) cap (c :: cs) ↔ IsMatchAfter pre cap cs := by
  unfold IsMatchAfter
  simp

theorem isMatchAfter_cons_head {c : Char} {pre cap cs : List Char}
    (h : IsMatchAfter pre cap (c :: cs)) (hp : pre ≠ []) :
    ∃ pre', pre = c :: pre' ∧ IsMatchAfter pre' cap cs := by
  cases pre with
  | nil => exact absurd rfl hp
  | cons a pre' =>
    obtain ⟨hne, hall, post, hcs⟩ := h
    simp only [List.cons_append, List.cons.injEq] at hcs
    obtain ⟨rfl, hcs⟩ := hcs
    exact ⟨pre', rfl, hne, hall, post, by simpa using hcs⟩

theorem regexExec_some_iff (cs cap : List Char) :
    regexExec cs = some cap ↔ IsLeftmostMatch cs cap := by
  induction cs with
  | nil =>
    simp only [regexExec]
    constructor
    · intro h; cases h
    · rintro ⟨pre, ⟨_, _, post, h⟩, _⟩
      simp at h
  | cons c t ih =>
    rw [regexExec]
    cases hm : matchAtHead (c :: t) with
    | some cap0 =>
      have h0 : IsMatchAfter [] cap0 (c :: t) := (matchAtHead_some_iff _ _).1 hm
      constructor
      · intro h
        cases h
        exact ⟨[], h0, fun _ _ _ => Nat.zero_le _⟩
      · rintro ⟨pre, hpre, hmin⟩
        have hl := hmin [] cap0 h0
        have : pre = [] := List.length_eq_zero.1 (Nat.le_zero.1 hl)
        subst this
        have := (matchAtHead_some_iff _ _).2 hpre
        rw [hm] at this
        exact this
    | none =>
      have hno : ∀ cap', ¬ IsMatchAfter [] cap' (c :: t) := by
        intro cap' h
        have := (matchAtHead_some_iff _ _).2 h
        rw [hm] at this
        cases this
      simp only []
      rw [ih]
      constructor
      · rintro ⟨pre, hpre, hmin⟩
        refine ⟨c :: pre, (isMatchAfter_cons c pre cap t).2 hpre, ?_⟩
        intro pre' cap' h'
        have hp' : pre' ≠ [] := by
          rintro rfl
          exact hno cap' h'
        obtain ⟨p2, rfl, h2⟩ := isMatchAfter_cons_head h' hp'
        have := hmin p2 cap' h2
        simp only [List.length_cons]
        omega
      · rintro ⟨pre, hpre, hmin⟩
        have hp : pre ≠ [] := by
          rintro rfl
          exact hno cap hpre
        obtain ⟨p2, rfl, h2⟩ := isMatchAfter_cons_head hpre hp
        refine ⟨p2, h2, ?_⟩
        intro pre' cap' h'
        have := hmin (c :: pre') cap' ((isMatchAfter_cons c pre' cap' t).2 h')
        simp only [List.length_cons] at this
        omega

theorem regexExec_none_iff (cs : List Char) :
    regexExec cs = none ↔ ∀ pre cap, ¬ IsMatchAfter pre cap cs := by
  induction cs with
  | nil =>
    simp only [regexExec, true_iff]
    rintro pre cap ⟨_, _, post, h⟩
    simp at h
  | cons c t ih =>
    rw [regexExec]
    cases hm : matchAtHead (c :: t) with
    | some cap0 =>
      have h0 : IsMatchAfter [] cap0 (c :: t) := (matchAtHead_some_iff _ _).1 hm
      constructor
      · intro h
        cases h
      · intro h
        exact absurd h0 (h [] cap0)
    | none =>
      simp only []
      rw [ih]
      constructor
      · intro h pre cap hpre
        have hp : pre ≠ [] := by
          rintro rfl
          have := (matchAtHead_some_iff _ _).2 hpre
          rw [hm] at this
          cases this
        obtain ⟨p2, rfl, h2⟩ := isMatchAfter_cons_head hpre hp
        exact h p2 cap h2
      · intro h pre cap hpre
        exact h (c :: pre) cap ((isMatchAfter_cons c pre cap t).2 hpre)

/-! ## Lemmas: classification -/

theorem heartData_eq (label : JSValue → String) (rs : List RawReading) :
    heartData label rs = (rs.filter acceptsHeartRate).map (numberPoint label) := rfl

theorem oxygen_eq (label : JSValue → String) (rs : List RawReading) :
    oxygen label rs = (rs.filter acceptsOxygen).map (numberPoint label) := rfl

theorem tempPoint_kept (label : JSValue → String) (d : RawReading) :
    (typeofIsNumber (tempPoint label d).value && !jsIsNaN (tempPoint label d).value) =
      match tempPatternExec d.value with
      | some cap => !(parseFloat cap).isNaN
      | none => false := by
  unfold tempPoint
  cases tempPatternExec d.value <;> simp [typeofIsNumber, jsIsNaN, toNumber]

theorem temp_eq (label : JSValue → String) (rs : List RawReading) :
    temp label rs = (rs.filter acceptsTemperature).map (tempPoint label) := by
  unfold temp
  rw [List.filter_map, List.filter_filter]
  congr 1
  apply List.filter_congr
  intro d _
  simp only [Function.comp, acceptsTemperature, tempPoint_kept]
  rw [Bool.and_comm]

theorem strictEqString_iff (v : JSValue) (s : String) :
    strictEqString v s = true ↔ v = JSValue.str s := by
  cases v <;> simp [strictEqString]

theorem tag_of_acceptsHeartRate {d : RawReading} (h : acceptsHeartRate d = true) :
    d.sensor_type = JSValue.str "heart_rate" := by
  unfold acceptsHeartRate at h
  exact (strictEqString_iff _ _).1 (Bool.and_eq_true_iff.1 h).1

theorem tag_of_acceptsOxygen {d : RawReading} (h : acceptsOxygen d = true) :
    d.sensor_type = JSValue.str "oxygen" := by
  unfold acceptsOxygen at h
  exact (strictEqString_iff _ _).1 (Bool.and_eq_true_iff.1 h).1

theorem tag_of_acceptsTemperature {d : RawReading} (h : acceptsTemperature d = true) :
    d.sensor_type = JSValue.str "temp_humidity" := by
  unfold acceptsTemperature at h
  exact (strictEqString_iff _ _).1 (Bool.and_eq_true_iff.1 h).1

theorem accepts_count_le_one (d : RawReading) :
    (if acceptsHeartRate d then 1 else 0) + (if acceptsOxygen d then 1 else 0)
      + (if acceptsTemperature d then 1 else 0) ≤ 1 := by
  have h1 := @tag_of_acceptsHeartRate d
  have h2 := @tag_of_acceptsOxygen d
  have h3 := @tag_of_acceptsTemperature d
  cases hh : acceptsHeartRate d <;> cases ho : acceptsOxygen d <;>
    cases ht : acceptsTemperature d <;> simp
  all_goals
    first
      | (have e := (h1 hh).symm.trans (h2 ho); exact absurd (JSValue.str.inj e) (by decide))
      | (have e := (h1 hh).symm.trans (h3 ht); exact absurd (JSValue.str.inj e) (by decide))
      | (have e := (h2 ho).symm.trans (h3 ht); exact absurd (JSValue.str.inj e) (by decide))

theorem filter_lengths_le (rs : List RawReading) :
    (rs.filter acceptsHeartRate).length + (rs.filter acceptsOxygen).length
      + (rs.filter acceptsTemperature).length ≤ rs.length := by
  induction rs with
  | nil => simp
  | cons d t ih =>
    have h := accepts_count_le_one d
    simp only [List.filter_cons, List.length_cons]
    revert h
    cases acceptsHeartRate d <;> cases acceptsOxygen d <;> cases acceptsTemperature d <;>
      simp <;> omega

/-! ## Lemmas: the cycle -/

theorem runCycle_series (label : JSValue → String) (rs : List RawReading)
    (net : AnalyzeOutcome) (w : World) :
    (runCycle label (Snapshot.readings rs) net w).app.heartRateData = heartData label rs ∧
    (runCycle label (Snapshot.readings rs) net w).app.oxygenData = oxygen label rs ∧
    (runCycle label (Snapshot.readings rs) net w).app.temperatureData = temp label rs := by
  cases net with
  | rejected => exact ⟨rfl, rfl, rfl⟩
  | response status body =>
    cases body with
    | none => exact ⟨rfl, rfl, rfl⟩
    | some j => exact ⟨rfl, rfl, rfl⟩

theorem mem_heartData_iff (label : JSValue → String) (rs : List RawReading) (p : DisplayPoint) :
    p ∈ heartData label rs ↔
      ∃ d, d ∈ rs ∧ d.sensor_type = JSValue.str "heart_rate" ∧ toNumber d.value ≠ JSNum.nan ∧
        p = { time := label d.timestamp, value := JSValue.num (toNumber d.value) } := by
  rw [heartData_eq]
  simp only [List.mem_map, List.mem_filter, acceptsHeartRate, Bool.and_eq_true,
    strictEqString_iff, numberPoint]
  constructor
  · rintro ⟨d, ⟨hd, ht, hn⟩, rfl⟩
    refine ⟨d, hd, ht, ?_, rfl⟩
    intro h; rw [h] at hn; simp [JSNum.isNaN] at hn
  · rintro ⟨d, hd, ht, hn, rfl⟩
    refine ⟨d, ⟨hd, ht, ?_⟩, rfl⟩
    cases h : toNumber d.value <;> simp [JSNum.isNaN]
    exact hn h

theorem mem_oxygen_iff (label : JSValue → String) (rs : List RawReading) (p : DisplayPoint) :
    p ∈ oxygen label rs ↔
      ∃ d, d ∈ rs ∧ d.sensor_type = JSValue.str "oxygen" ∧ toNumber d.value ≠ JSNum.nan ∧
        p = { time := label d.timestamp, value := JSValue.num (toNumber d.value) } := by
  rw [oxygen_eq]
  simp only [List.mem_map, List.mem_filter, acceptsOxygen, Bool.and_eq_true,
    strictEqString_iff, numberPoint]
  constructor
  · rintro ⟨d, ⟨hd, ht, hn⟩, rfl⟩
    refine ⟨d, hd, ht, ?_, rfl⟩
    intro h; rw [h] at hn; simp [JSNum.isNaN] at hn
  · rintro ⟨d, hd, ht, hn, rfl⟩
    refine ⟨d, ⟨hd, ht, ?_⟩, rfl⟩
    cases h : toNumber d.value <;> simp [JSNum.isNaN]
    exact hn h

theorem tempPatternExec_some_iff (v : JSValue) (cap : List Char) :
    tempPatternExec v = some cap ↔ ∃ s, v = JSValue.str s ∧ regexExec s.toList = some cap := by
  cases v with
  | str s => simp [tempPatternExec]
  | num x => simp [tempPatternExec]
  | undefined =>
    have h : tempPatternExec JSValue.undefined = none := by decide
    rw [h]; simp
  | null =>
    have h : tempPatternExec JSValue.null = none := by decide
    rw [h]; simp
  | bool b =>
    have h1 : tempPatternExec (JSValue.bool true) = none := by decide
    have h2 : tempPatternExec (JSValue.bool false) = none := by decide
    cases b
    · rw [h2]; simp
    · rw [h1]; simp

theorem acceptsTemperature_iff (d : RawReading) :
    acceptsTemperature d = true ↔
      d.sensor_type = JSValue.str "temp_humidity" ∧
        ∃ s cap, d.value = JSValue.str s ∧ IsLeftmostMatch s.toList cap ∧
          parseFloat cap ≠ JSNum.nan := by
  unfold acceptsTemperature
  rw [Bool.and_eq_true, strictEqString_iff]
  apply and_congr_right
  intro _
  constructor
  · intro h
    cases hm : tempPatternExec d.value with
    | none => rw [hm] at h; cases h
    | some cap =>
      rw [hm] at h
      obtain ⟨s, hs, hr⟩ := (tempPatternExec_some_iff _ _).1 hm
      refine ⟨s, cap, hs, (regexExec_some_iff _ _).1 hr, ?_⟩
      intro hn
      simp only [hn, JSNum.isNaN] at h
      cases h
  · rintro ⟨s, cap, hs, hl, hn⟩
    have hm : tempPatternExec d.value = some cap :=
      (tempPatternExec_some_iff _ _).2 ⟨s, hs, (regexExec_some_iff _ _).2 hl⟩
    rw [hm]
    cases h : parseFloat cap <;> simp [JSNum.isNaN]

theorem tempPoint_of_match (label : JSValue → String) {d : RawReading} {s : String}
    {cap : List Char} (hs : d.value = JSValue.str s) (hl : IsLeftmostMatch s.toList cap) :
    tempPoint label d = { time := label d.timestamp, value := JSValue.num (parseFloat cap) } := by
  have hm : tempPatternExec d.value = some cap :=
    (tempPatternExec_some_iff _ _).2 ⟨s, hs, (regexExec_some_iff _ _).2 hl⟩
  simp [tempPoint, hm]

theorem isLeftmostMatch_unique {cs cap cap' : List Char} (h : IsLeftmostMatch cs cap)
    (h' : IsLeftmostMatch cs cap') : cap = cap' := by
  have a := (regexExec_some_iff _ _).2 h
  have b := (regexExec_some_iff _ _).2 h'
  rw [a] at b
  exact Option.some.inj b

theorem mem_temp_iff (label : JSValue → String) (rs : List RawReading) (p : DisplayPoint) :
    p ∈ temp label rs ↔
      ∃ d s cap, d ∈ rs ∧ d.sensor_type = JSValue.str "temp_humidity" ∧
        d.value = JSValue.str s ∧ IsLeftmostMatch s.toList cap ∧
        parseFloat cap ≠ JSNum.nan ∧
        p = { time := label d.timestamp, value := JSValue.num (parseFloat cap) } := by
  rw [temp_eq]
  simp only [List.mem_map, List.mem_filter, acceptsTemperature_iff]
  constructor
  · rintro ⟨d, ⟨hd, ht, s, cap, hs, hl, hn⟩, rfl⟩
    exact ⟨d, s, cap, hd, ht, hs, hl, hn, tempPoint_of_match label hs hl⟩
  · rintro ⟨d, s, cap, hd, ht, hs, hl, hn, rfl⟩
    exact ⟨d, ⟨hd, ht, s, cap, hs, hl, hn⟩, tempPoint_of_match label hs hl⟩

/-! ## Claims -/

/-- C1: for every sequence of raw readings and every way the cycle ends, each
of the three committed series is the input filtered by the acceptance predicate
of its category and then mapped to points, and the readings behind each series
form a sublist of the input, so their relative order is the input order. -/
theorem C1_series_are_filtered_input_in_order (label : JSValue → String)
    (rs : List RawReading) (net : AnalyzeOutcome) (w : World) :
    (runCycle label (Snapshot.readings rs) net w).app.heartRateData
        = (rs.filter acceptsHeartRate).map (numberPoint label) ∧
    (runCycle label (Snapshot.readings rs) net w).app.oxygenData
        = (rs.filter acceptsOxygen).map (numberPoint label) ∧
    (runCycle label (Snapshot.readings rs) net w).app.temperatureData
        = (rs.filter acceptsTemperature).map (tempPoint label) ∧
    (rs.filter acceptsHeartRate).Sublist rs ∧
    (rs.filter acceptsOxygen).Sublist rs ∧
    (rs.filter acceptsTemperature).Sublist rs := by
  obtain ⟨h1, h2, h3⟩ := runCycle_series label rs net w
  rw [h1, h2, h3, heartData_eq, oxygen_eq, temp_eq]
  exact ⟨rfl, rfl, rfl, List.filter_sublist _, List.filter_sublist _, List.filter_sublist _⟩

/-- C2: a single reading yields a point in at most one of the three series, and
for every sequence of readings the three committed series together hold at most
as many points as there are readings. -/
theorem C2_reading_feeds_at_most_one_series (label : JSValue → String)
    (rs : List RawReading) (net : AnalyzeOutcome) (w : World) :
    (∀ d : RawReading,
      (heartData label [d]).length + (oxygen label [d]).length
        + (temp label [d]).length ≤ 1) ∧
    (runCycle label (Snapshot.readings rs) net w).app.heartRateData.length
      + (runCycle label (Snapshot.readings rs) net w).app.oxygenData.length
      + (runCycle label (Snapshot.readings rs) net w).app.temperatureData.length
      ≤ rs.length := by
  obtain ⟨h1, h2, h3⟩ := runCycle_series label rs net w
  rw [h1, h2, h3]
  constructor
  · intro d
    have h := filter_lengths_le [d]
    simpa [heartData_eq, oxygen_eq, temp_eq] using h
  · simpa [heartData_eq, oxygen_eq, temp_eq] using filter_lengths_le rs

/-- C3 (as stated, refuted): the heart-rate reading whose value is the string
`Infinity` is accepted, and its point carries the value +Infinity, which is not
a finite number. -/
theorem C3_counterexample_infinity_accepted :
    (runCycle sampleLabel
        (Snapshot.readings
          [{ sensor_type := .str "heart_rate", value := .str "Infinity",
             timestamp := .str "2025-01-01T08:00:00Z" }])
        AnalyzeOutcome.rejected World.initial).app.heartRateData
      = [{ time := "08:00", value := JSValue.num JSNum.posInf }] ∧
    JSNum.isFinite JSNum.posInf = false := by
  constructor
  · show heartData sampleLabel _ = _
    simp [heartData, strictEqString, toNumber, stringToNumber_Infinity, JSNum.isNaN,
      sampleLabel]
  · rfl

/-- C3 (amended): a point is in the heart-rate (respectively oxygen) series
exactly when it is the point of a reading whose sensor_type is `heart_rate`
(respectively `oxygen`) and whose value coerces to a number other than NaN;
every other reading is dropped from that series.  Hence every value of the two
series is a number that is not NaN (it may be an infinity). -/
theorem C3_heart_and_oxygen_accept_non_nan (label : JSValue → String)
    (rs : List RawReading) (net : AnalyzeOutcome) (w : World) (p : DisplayPoint) :
    (p ∈ (runCycle label (Snapshot.readings rs) net w).app.heartRateData ↔
      ∃ d, d ∈ rs ∧ d.sensor_type = JSValue.str "heart_rate" ∧
        toNumber d.value ≠ JSNum.nan ∧
        p = { time := label d.timestamp, value := JSValue.num (toNumber d.value) }) ∧
    (p ∈ (runCycle label (Snapshot.readings rs) net w).app.oxygenData ↔
      ∃ d, d ∈ rs ∧ d.sensor_type = JSValue.str "oxygen" ∧
        toNumber d.value ≠ JSNum.nan ∧
        p = { time := label d.timestamp, value := JSValue.num (toNumber d.value) }) ∧
    ((p ∈ (runCycle label (Snapshot.readings rs) net w).app.heartRateData ∨
        p ∈ (runCycle label (Snapshot.readings rs) net w).app.oxygenData) →
      ∃ x, p.value = JSValue.num x ∧ x ≠ JSNum.nan) := by
  obtain ⟨h1, h2, _⟩ := runCycle_series label rs net w
  rw [h1, h2]
  refine ⟨mem_heartData_iff label rs p, mem_oxygen_iff label rs p, ?_⟩
  rintro (h | h)
  · obtain ⟨d, _, _, hn, rfl⟩ := (mem_heartData_iff label rs p).1 h
    exact ⟨_, rfl, hn⟩
  · obtain ⟨d, _, _, hn, rfl⟩ := (mem_oxygen_iff label rs p).1 h
    exact ⟨_, rfl, hn⟩

/-- C4 (as stated, refuted): a temp_humidity reading whose value starts with
other text (`Temp: 36.9°C`, first character `T`) is not dropped: the pattern
has no anchor, it matches further right and the point carries 36.9. -/
theorem C4_counterexample_text_before_number :
    (runCycle sampleLabel
        (Snapshot.readings
          [{ sensor_type := .str "temp_humidity", value := .str "Temp: 36.9°C",
             timestamp := .str "2025-01-01T08:02:00Z" }])
        AnalyzeOutcome.rejected World.initial).app.temperatureData
      = [{ time := "08:02", value := JSValue.num (JSNum.fin 36.9) }] ∧
    "Temp: 36.9°C".toList.head? = some 'T' ∧ isDigitOrDot 'T' = false := by
  refine ⟨?_, by decide, by decide⟩
  show temp sampleLabel _ = _
  have h : tempPatternExec (JSValue.str "Temp: 36.9°C") = some ['3', '6', '.', '9'] := by decide
  simp [temp, tempPoint, strictEqString, h, parseFloat_36_9, typeofIsNumber, jsIsNaN,
    toNumber, JSNum.isNaN, sampleLabel]

/-- C4 (amended): a point is in the temperature series exactly when it comes
from a reading whose sensor_type is `temp_humidity` and whose value is a string
that contains, anywhere, a run of digits and dots immediately followed by `°C`,
and `parseFloat` of the leftmost such run is not NaN; the point's value is
`parseFloat` of that run.  A temp_humidity reading whose value holds no such
run, is not a string, or whose leftmost run parses to NaN, is dropped. -/
theorem C4_temperature_accepts_leftmost_run (label : JSValue → String)
    (rs : List RawReading) (net : AnalyzeOutcome) (w : World) (p : DisplayPoint) :
    p ∈ (runCycle label (Snapshot.readings rs) net w).app.temperatureData ↔
      ∃ d s cap, d ∈ rs ∧ d.sensor_type = JSValue.str "temp_humidity" ∧
        d.value = JSValue.str s ∧ IsLeftmostMatch s.toList cap ∧
        parseFloat cap ≠ JSNum.nan ∧
        p = { time := label d.timestamp, value := JSValue.num (parseFloat cap) } := by
  obtain ⟨_, _, h3⟩ := runCycle_series label rs net w
  rw [h3]
  exact mem_temp_iff label rs p

/-- C5: on the example input of the specification, whatever the timestamps, the
rendering and the outcome of the analysis call, the cycle commits the heart-rate
series `[{time: label(T1), value: 72}]`, an empty oxygen series and the
temperature series `[{time: label(T3), value: 36.9}]`. -/
theorem C5_example_classification (label : JSValue → String) (T1 T2 T3 : JSValue)
    (net : AnalyzeOutcome) (w : World) :
    (runCycle label
        (Snapshot.readings
          [{ sensor_type := .str "heart_rate", value := .str "72", timestamp := T1 },
           { sensor_type := .str "oxygen", value := .str "n/a", timestamp := T2 },
           { sensor_type := .str "temp_humidity", value := .str "36.9°C 40%RH",
             timestamp := T3 }])
        net w).app.heartRateData
      = [{ time := label T1, value := JSValue.num (JSNum.fin 72) }] ∧
    (runCycle label
        (Snapshot.readings
          [{ sensor_type := .str "heart_rate", value := .str "72", timestamp := T1 },
           { sensor_type := .str "oxygen", value := .str "n/a", timestamp := T2 },
           { sensor_type := .str "temp_humidity", value := .str "36.9°C 40%RH",
             timestamp := T3 }])
        net w).app.oxygenData = [] ∧
    (runCycle label
        (Snapshot.readings
          [{ sensor_type := .str "heart_rate", value := .str "72", timestamp := T1 },
           { sensor_type := .str "oxygen", value := .str "n/a", timestamp := T2 },
           { sensor_type := .str "temp_humidity", value := .str "36.9°C 40%RH",
             timestamp := T3 }])
        net w).app.temperatureData
      = [{ time := label T3, value := JSValue.num (JSNum.fin 36.9) }] := by
  obtain ⟨h1, h2, h3⟩ := runCycle_series label
    [{ sensor_type := .str "heart_rate", value := .str "72", timestamp := T1 },
     { sensor_type := .str "oxygen", value := .str "n/a", timestamp := T2 },
     { sensor_type := .str "temp_humidity", value := .str "36.9°C 40%RH",
       timestamp := T3 }] net w
  rw [h1, h2, h3]
  have h : tempPatternExec (JSValue.str "36.9°C 40%RH") = some ['3', '6', '.', '9'] := by decide
  refine ⟨?_, ?_, ?_⟩
  · simp [heartData, strictEqString, toNumber, stringToNumber_72, JSNum.isNaN]
  · simp [oxygen, strictEqString, toNumber, stringToNumber_na, JSNum.isNaN]
  · simp [temp, tempPoint, strictEqString, h, parseFloat_36_9, typeofIsNumber, jsIsNaN,
      toNumber, JSNum.isNaN]

/-- C6: for every pre-cycle state and every sequence of readings, a cycle whose
analysis call fails (the request rejects, or the body of the response cannot be
read) ends with the three series equal to the classification of this cycle's
snapshot and with `aiSummary` equal to its value before the cycle. -/
theorem C6_failed_analysis_keeps_summary (label : JSValue → String)
    (rs : List RawReading) (net : AnalyzeOutcome) (w : World)
    (hfail : net.fails = true) :
    (runCycle label (Snapshot.readings rs) net w).app.heartRateData = heartData label rs ∧
    (runCycle label (Snapshot.readings rs) net w).app.oxygenData = oxygen label rs ∧
    (runCycle label (Snapshot.readings rs) net w).app.temperatureData = temp label rs ∧
    (runCycle label (Snapshot.readings rs) net w).app.aiSummary = w.app.aiSummary := by
  cases net with
  | rejected => exact ⟨rfl, rfl, rfl, rfl⟩
  | response status body =>
    cases body with
    | none => exact ⟨rfl, rfl, rfl, rfl⟩
    | some j => exact absurd hfail (by simp [AnalyzeOutcome.fails])

/-- Witness of C6: the example input, the request rejected, from the initial
state. -/
theorem C6_failed_analysis_keeps_summary_witness :
    AnalyzeOutcome.rejected.fails = true ∧
    (runCycle sampleLabel (Snapshot.readings sampleReadings) AnalyzeOutcome.rejected
        World.initial).app.heartRateData = heartData sampleLabel sampleReadings ∧
    (runCycle sampleLabel (Snapshot.readings sampleReadings) AnalyzeOutcome.rejected
        World.initial).app.oxygenData = oxygen sampleLabel sampleReadings ∧
    (runCycle sampleLabel (Snapshot.readings sampleReadings) AnalyzeOutcome.rejected
        World.initial).app.temperatureData = temp sampleLabel sampleReadings ∧
    (runCycle sampleLabel (Snapshot.readings sampleReadings) AnalyzeOutcome.rejected
        World.initial).app.aiSummary = World.initial.app.aiSummary :=
  ⟨rfl, C6_failed_analysis_keeps_summary sampleLabel sampleReadings AnalyzeOutcome.rejected
    World.initial rfl⟩

/-- C7 (as stated, refuted): a response with status 500 whose body parses as
JSON replaces the stored analysis result with that body, which differs from the
previous value `null`. -/
theorem C7_counterexample_error_status_stored :
    (runCycle sampleLabel (Snapshot.readings sampleReadings)
        (AnalyzeOutcome.response 500 (some sampleErrorBody)) World.initial).app.aiSummary
      = sampleErrorBody ∧
    World.initial.app.aiSummary = Json.null ∧
    sampleErrorBody ≠ Json.null := by
  refine ⟨rfl, rfl, ?_⟩
  intro h
  cases h

/-- C7 (amended): the analysis step fails only when the request rejects or the
body of the response cannot be parsed as JSON, and then the stored analysis
result keeps its previous value; the HTTP status is not inspected, so for every
status a response whose body parses replaces the stored result with that body. -/
theorem C7_summary_follows_body_not_status (label : JSValue → String)
    (rs : List RawReading) (w : World) :
    (runCycle label (Snapshot.readings rs) AnalyzeOutcome.rejected w).app.aiSummary
      = w.app.aiSummary ∧
    (∀ status : Nat,
      (runCycle label (Snapshot.readings rs) (AnalyzeOutcome.response status none)
        w).app.aiSummary = w.app.aiSummary) ∧
    (∀ (status : Nat) (body : Json),
      (runCycle label (Snapshot.readings rs) (AnalyzeOutcome.response status (some body))
        w).app.aiSummary = body) :=
  ⟨rfl, fun _ => rfl, fun _ _ => rfl⟩

/-- C8 (as stated, refuted): from the initial state, a cycle whose snapshot is
the JSON object `{}` instead of a sequence ends with that object stored as the
readings: `setSensorData(data)` runs before `data.filter` throws. -/
theorem C8_counterexample_invalid_snapshot_stored :
    (runCycle sampleLabel (Snapshot.object []) AnalyzeOutcome.rejected
        World.initial).app.sensorData = Snapshot.object [] ∧
    World.initial.app.sensorData = Snapshot.readings [] ∧
    Snapshot.object [] ≠ Snapshot.readings [] := by
  refine ⟨rfl, rfl, ?_⟩
  intro h
  cases h

/-- C8 (amended): for every pre-cycle state, a cycle whose snapshot is not a
sequence leaves the three series, the analysis result and the rest of the React
state at their pre-cycle values and sends no request; what changes is
`sensorData`, overwritten by the snapshot, `loading`, set to false, and the
console, which receives the TypeError.  The state has no error field. -/
theorem C8_invalid_snapshot_keeps_series_and_summary (label : JSValue → String)
    (data : Snapshot) (net : AnalyzeOutcome) (w : World) (hbad : data.isArray = false) :
    runCycle label data net w =
      { app := { w.app with sensorData := data, loading := false },
        requests := w.requests,
        console := w.console ++ [JSError.typeError] } := by
  cases data with
  | readings rs => exact absurd hbad (by simp [Snapshot.isArray])
  | scalar v => rfl
  | object fields => rfl

/-- Witness of C8: the snapshot `{}` from the initial state. -/
theorem C8_invalid_snapshot_keeps_series_and_summary_witness :
    (Snapshot.object []).isArray = false ∧
    runCycle sampleLabel (Snapshot.object []) AnalyzeOutcome.rejected World.initial =
      { app := { World.initial.app with sensorData := Snapshot.object [], loading := false },
        requests := World.initial.requests,
        console := World.initial.console ++ [JSError.typeError] } :=
  ⟨rfl, C8_invalid_snapshot_keeps_series_and_summary sampleLabel (Snapshot.object [])
    AnalyzeOutcome.rejected World.initial rfl⟩

/-- C9 (as stated, refuted): nothing in the state is cleared or stamped by a
success.  A fully successful cycle run right after an identical one leaves the
whole React state as it was, so no component records when the last success
happened; and the only record of an error, the console, still holds the error of
a failed cycle after the next cycle has fully succeeded. -/
theorem C9_counterexample_success_leaves_no_trace :
    (runCycle sampleLabel (Snapshot.readings sampleReadings)
        (AnalyzeOutcome.response 200 (some (Json.str "ok")))
        (runCycle sampleLabel (Snapshot.readings sampleReadings)
          (AnalyzeOutcome.response 200 (some (Json.str "ok"))) World.initial)).app
      = (runCycle sampleLabel (Snapshot.readings sampleReadings)
          (AnalyzeOutcome.response 200 (some (Json.str "ok"))) World.initial).app ∧
    (runCycle sampleLabel (Snapshot.readings sampleReadings)
        (AnalyzeOutcome.response 200 (some (Json.str "ok")))
        (runCycle sampleLabel (Snapshot.readings sampleReadings)
          AnalyzeOutcome.rejected World.initial)).console
      = [JSError.fetchRejected] :=
  ⟨rfl, rfl⟩

/-- C9 (amended): for every pre-cycle state, sequence of readings and response
whose body parses to `R`, the cycle ends with the stored readings equal to the
snapshot, the three series equal to the classification of the snapshot, the
stored analysis equal to `R` as a whole, whatever it was before, and `loading`
false; one request was sent, the console and the rest of the state are
unchanged.  There is no lastError and no lastSuccessAt. -/
theorem C9_successful_cycle_commits_everything (label : JSValue → String)
    (rs : List RawReading) (status : Nat) (R : Json) (w : World) :
    runCycle label (Snapshot.readings rs) (AnalyzeOutcome.response status (some R)) w =
      { app :=
          { w.app with
            sensorData := Snapshot.readings rs
            heartRateData := heartData label rs
            oxygenData := oxygen label rs
            temperatureData := temp label rs
            aiSummary := R
            loading := false },
        requests := w.requests ++ [analyzeRequest (Snapshot.readings rs)],
        console := w.console } :=
  rfl

/-- C10: for every sequence of readings, every outcome and every pre-cycle
state, the cycle sends exactly one request, a POST to the analyze endpoint whose
body is `{posture: "sitting", pill_status: "closed", sensor_data: S}` with `S`
the whole snapshot, unfiltered and in input order. -/
theorem C10_request_body_is_fixed_context_and_raw_snapshot (label : JSValue → String)
    (rs : List RawReading) (net : AnalyzeOutcome) (w : World) :
    (runCycle label (Snapshot.readings rs) net w).requests =
      w.requests ++
        [{ url := "http://127.0.0.1:8000/analyze",
           method := "POST",
           contentType := "application/json",
           body :=
             { posture := "sitting",
               pill_status := "closed",
               sensor_data := Snapshot.readings rs } }] := by
  cases net with
  | rejected => rfl
  | response status body =>
    cases body with
    | none => rfl
    | some j => rfl

/-! ## Lemmas: series lengths, the tour, the scheduler -/

theorem heartData_append (label : JSValue → String) (a b : List RawReading) :
    heartData label (a ++ b) = heartData label a ++ heartData label b := by
  simp [heartData_eq]

theorem oxygen_append (label : JSValue → String) (a b : List RawReading) :
    oxygen label (a ++ b) = oxygen label a ++ oxygen label b := by
  simp [oxygen_eq]

theorem temp_append (label : JSValue → String) (a b : List RawReading) :
    temp label (a ++ b) = temp label a ++ temp label b := by
  simp [temp_eq]

theorem heartData_cons_accepted (label : JSValue → String) {d : RawReading}
    (h : acceptsHeartRate d = true) (rs : List RawReading) :
    heartData label (d :: rs) = numberPoint label d :: heartData label rs := by
  simp [heartData_eq, List.filter_cons, h]

theorem oxygen_cons_accepted (label : JSValue → String) {d : RawReading}
    (h : acceptsOxygen d = true) (rs : List RawReading) :
    oxygen label (d :: rs) = numberPoint label d :: oxygen label rs := by
  simp [oxygen_eq, List.filter_cons, h]

theorem temp_cons_accepted (label : JSValue → String) {d : RawReading}
    (h : acceptsTemperature d = true) (rs : List RawReading) :
    temp label (d :: rs) = tempPoint label d :: temp label rs := by
  simp [temp_eq, List.filter_cons, h]

theorem series_lengths (label : JSValue → String) (rs : List RawReading) :
    (heartData label rs).length = rs.countP acceptsHeartRate ∧
    (oxygen label rs).length = rs.countP acceptsOxygen ∧
    (temp label rs).length = rs.countP acceptsTemperature := by
  simp [heartData_eq, oxygen_eq, temp_eq, List.countP_eq_length_filter]

theorem validTourStep_iff (t : Option Nat) :
    validTourStep t = true ↔ t = none ∨ t = some 0 ∨ t = some 1 ∨ t = some 2 := by
  cases t with
  | none => simp [validTourStep]
  | some n =>
    simp only [validTourStep, tourContentLength, decide_eq_true_eq, Option.some.injEq]
    constructor
    · intro h
      right
      omega
    · rintro (h | h | h | h)
      · cases h
      · omega
      · omega
      · omega

theorem validTourStep_apply (a : TourAction) (s : AppState)
    (h : validTourStep s.tourStep = true) : validTourStep (a.apply s).tourStep = true := by
  rcases (validTourStep_iff _).1 h with h | h | h | h <;>
    cases a <;>
    simp [TourAction.apply, startTour, nextStep, prevStep, endTour, setTourStep, h,
      tourStepToNumber, tourContentLength, validTourStep]

theorem validTourStep_runTour (actions : List TourAction) (s : AppState)
    (h : validTourStep s.tourStep = true) :
    validTourStep (runTour actions s).tourStep = true := by
  induction actions generalizing s with
  | nil => exact h
  | cons a rest ih => exact ih (a.apply s) (validTourStep_apply a s h)

theorem tick_registered (handle : Nat) (h : Host)
    (hreg : h.intervals.any (fun t => decide (t.handle = handle)) = true) :
    h.tick handle = h.callFetchAndAnalyze := by
  simp only [Host.tick, hreg, if_true]

theorem tick_cleared (handle : Nat) (h : Host)
    (hreg : h.intervals.any (fun t => decide (t.handle = handle)) = false) :
    h.tick handle = h := by
  simp [Host.tick, hreg]

theorem ticks_registered (handle : Nat) (n : Nat) (h : Host)
    (hreg : h.intervals.any (fun t => decide (t.handle = handle)) = true) :
    Host.ticks handle n h = { h with triggers := h.triggers + n } := by
  induction n generalizing h with
  | zero => rfl
  | succ n ih =>
    have hreg' : h.callFetchAndAnalyze.intervals.any
        (fun t => decide (t.handle = handle)) = true := hreg
    rw [Host.ticks, tick_registered handle h hreg, ih h.callFetchAndAnalyze hreg']
    simp only [Host.callFetchAndAnalyze]
    congr 1
    omega

theorem ticks_cleared (handle : Nat) (n : Nat) (h : Host)
    (hreg : h.intervals.any (fun t => decide (t.handle = handle)) = false) :
    Host.ticks handle n h = h := by
  induction n with
  | zero => rfl
  | succ n ih => rw [Host.ticks, tick_cleared handle h hreg, ih]

theorem clearInterval_unregisters (handle : Nat) (h : Host) :
    (h.clearInterval handle).intervals.any (fun t => decide (t.handle = handle)) = false := by
  simp [Host.clearInterval, List.any_eq_false]

theorem clearInterval_idem (handle : Nat) (h : Host) :
    (h.clearInterval handle).clearInterval handle = h.clearInterval handle := by
  simp [Host.clearInterval, List.filter_filter]

theorem pollEffect_registers (h : Host) :
    (pollEffect h).2.intervals.any (fun t => decide (t.handle = (pollEffect h).1)) = true := by
  simp [pollEffect, Host.setInterval, Host.callFetchAndAnalyze]

/-! ## Lemmas: the sign of a parsed temperature -/

theorem scanUnsignedDecimal_unsigned {cs rest : List Char} {lit : StrDecimalLiteral}
    (h : scanUnsignedDecimal cs = some (lit, rest)) :
    lit = StrDecimalLiteral.infinity false ∨
      ∃ d f e, lit = StrDecimalLiteral.decimal false d f e := by
  unfold scanUnsignedDecimal at h
  split at h
  · simp only [Option.some.injEq, Prod.mk.injEq] at h
    exact Or.inl h.1.symm
  · simp only at h
    split at h
    · split at h
      · cases h
      · simp only [Option.some.injEq, Prod.mk.injEq] at h
        exact Or.inr ⟨_, _, _, h.1.symm⟩
    · split at h
      · cases h
      · simp only [Option.some.injEq, Prod.mk.injEq] at h
        exact Or.inr ⟨_, _, _, h.1.symm⟩

theorem scanDecimal_unsigned {cs rest : List Char} {lit : StrDecimalLiteral}
    (hhead : cs.head? ≠ some '-') (h : scanDecimal cs = some (lit, rest)) :
    lit = StrDecimalLiteral.infinity false ∨
      ∃ d f e, lit = StrDecimalLiteral.decimal false d f e := by
  unfold scanDecimal at h
  split at h
  · exact scanUnsignedDecimal_unsigned h
  · simp at hhead
  · exact scanUnsignedDecimal_unsigned h

theorem mathValue_unsigned_nonneg (d f : Nat) (e : Int) :
    0 ≤ StrDecimalLiteral.mathValue false d f e := by
  unfold StrDecimalLiteral.mathValue
  simp only [Bool.false_eq_true, if_false, one_mul]
  positivity

theorem roundToNumber_nonneg {q : ℚ} (hq : 0 ≤ q) :
    (roundToNumber q).isNonNegative = true := by
  unfold roundToNumber
  split
  · rw [if_neg (not_lt.2 hq)]
    rfl
  · simp [JSNum.isNonNegative, hq]

theorem toNumber_unsigned_nonneg {lit : StrDecimalLiteral}
    (h : lit = StrDecimalLiteral.infinity false ∨
      ∃ d f e, lit = StrDecimalLiteral.decimal false d f e) :
    lit.toNumber.isNonNegative = true := by
  rcases h with rfl | ⟨d, f, e, rfl⟩
  · rfl
  · exact roundToNumber_nonneg (mathValue_unsigned_nonneg d f e)

theorem parseFloat_run_nonneg {cap : List Char} (hall : ∀ c ∈ cap, isDigitOrDot c = true) :
    parseFloat cap = JSNum.nan ∨ (parseFloat cap).isNonNegative = true := by
  unfold parseFloat
  have hhead : (cap.dropWhile isStrWhiteSpaceChar).head? ≠ some '-' := by
    intro hh
    have hmem : '-' ∈ cap.dropWhile isStrWhiteSpaceChar := List.mem_of_mem_head? hh
    have hc : '-' ∈ cap := (List.dropWhile_sublist _).subset hmem
    have := hall _ hc
    revert this
    decide
  cases hs : scanDecimal (cap.dropWhile isStrWhiteSpaceChar) with
  | none => exact Or.inl rfl
  | some r =>
    obtain ⟨lit, rest⟩ := r
    exact Or.inr (toNumber_unsigned_nonneg (scanDecimal_unsigned hhead hs))

theorem isDigitOrDot_minus : isDigitOrDot '-' = false := by decide

theorem regexExec_after_minus (cap post : List Char) (hne : cap ≠ [])
    (hall : ∀ c ∈ cap, isDigitOrDot c = true) :
    regexExec ('-' :: (cap ++ '°' :: 'C' :: post)) = some cap := by
  have h0 : matchAtHead ('-' :: (cap ++ '°' :: 'C' :: post)) = none := by
    rw [matchAtHead_eq]
    simp [List.takeWhile_cons, isDigitOrDot_minus]
  have h1 : matchAtHead (cap ++ '°' :: 'C' :: post) = some cap :=
    (matchAtHead_some_iff _ _).2 ⟨hne, hall, post, by simp⟩
  rw [regexExec, h0]
  simp only
  cases hc : cap ++ '°' :: 'C' :: post with
  | nil => simp at hc
  | cons a t =>
    rw [regexExec, ← hc, h1]

theorem parseFloat_5_2 : parseFloat ['5', '.', '2'] = JSNum.fin 5.2 := by
  have h1 : scanDecimal (List.dropWhile isStrWhiteSpaceChar ['5', '.', '2'])
      = some (.decimal false 52 1 0, []) := by decide
  unfold parseFloat
  simp only [h1, StrDecimalLiteral.toNumber, StrDecimalLiteral.mathValue]
  rw [roundToNumber_of_small (by norm_num [abs_of_nonneg])]
  norm_num

theorem temperature_value_nonneg (label : JSValue → String) (rs : List RawReading)
    (p : DisplayPoint) (hp : p ∈ temp label rs) :
    ∃ x, p.value = JSValue.num x ∧ x.isNonNegative = true := by
  obtain ⟨d, s, cap, _, _, _, hl, hn, rfl⟩ := (mem_temp_iff label rs p).1 hp
  obtain ⟨pre, ⟨_, hall, _⟩, _⟩ := hl
  rcases parseFloat_run_nonneg hall with h | h
  · exact absurd h hn
  · exact ⟨_, rfl, h⟩

/-- C11: for every sequence of readings and every outcome of the cycle, the
length of each committed series is the number of input readings its acceptance
predicate accepts; and two accepted readings of one category, wherever they
stand in the input and whether or not their time labels coincide, each give a
point of their own, in input order. -/
theorem C11_no_deduplication (label : JSValue → String) (rs : List RawReading)
    (net : AnalyzeOutcome) (w : World) :
    (runCycle label (Snapshot.readings rs) net w).app.heartRateData.length
      = rs.countP acceptsHeartRate ∧
    (runCycle label (Snapshot.readings rs) net w).app.oxygenData.length
      = rs.countP acceptsOxygen ∧
    (runCycle label (Snapshot.readings rs) net w).app.temperatureData.length
      = rs.countP acceptsTemperature ∧
    (∀ (a b c : List RawReading) (d1 d2 : RawReading),
      acceptsHeartRate d1 = true → acceptsHeartRate d2 = true →
      heartData label (a ++ d1 :: (b ++ d2 :: c)) =
        heartData label a ++ numberPoint label d1 ::
          (heartData label b ++ numberPoint label d2 :: heartData label c)) ∧
    (∀ (a b c : List RawReading) (d1 d2 : RawReading),
      acceptsOxygen d1 = true → acceptsOxygen d2 = true →
      oxygen label (a ++ d1 :: (b ++ d2 :: c)) =
        oxygen label a ++ numberPoint label d1 ::
          (oxygen label b ++ numberPoint label d2 :: oxygen label c)) ∧
    (∀ (a b c : List RawReading) (d1 d2 : RawReading),
      acceptsTemperature d1 = true → acceptsTemperature d2 = true →
      temp label (a ++ d1 :: (b ++ d2 :: c)) =
        temp label a ++ tempPoint label d1 ::
          (temp label b ++ tempPoint label d2 :: temp label c)) := by
  obtain ⟨h1, h2, h3⟩ := runCycle_series label rs net w
  obtain ⟨l1, l2, l3⟩ := series_lengths label rs
  rw [h1, h2, h3]
  refine ⟨l1, l2, l3, ?_, ?_, ?_⟩
  · intro a b c d1 d2 a1 a2
    rw [heartData_append, heartData_cons_accepted label a1, heartData_append,
      heartData_cons_accepted label a2]
  · intro a b c d1 d2 a1 a2
    rw [oxygen_append, oxygen_cons_accepted label a1, oxygen_append,
      oxygen_cons_accepted label a2]
  · intro a b c d1 d2 a1 a2
    rw [temp_append, temp_cons_accepted label a1, temp_append,
      temp_cons_accepted label a2]

/-- Witness of C11: two distinct heart-rate readings of the same minute are
both accepted, their labels coincide (`08:00`), and each gives its own point. -/
theorem C11_no_deduplication_witness :
    acceptsHeartRate sameMinuteFirst = true ∧
    acceptsHeartRate sameMinuteSecond = true ∧
    sameMinuteFirst ≠ sameMinuteSecond ∧
    sampleLabel sameMinuteFirst.timestamp = sampleLabel sameMinuteSecond.timestamp ∧
    heartData sampleLabel ([] ++ sameMinuteFirst :: ([] ++ sameMinuteSecond :: [])) =
      heartData sampleLabel [] ++ numberPoint sampleLabel sameMinuteFirst ::
        (heartData sampleLabel [] ++ numberPoint sampleLabel sameMinuteSecond ::
          heartData sampleLabel []) := by
  have a1 : acceptsHeartRate sameMinuteFirst = true := by
    simp [acceptsHeartRate, sameMinuteFirst, strictEqString, toNumber, stringToNumber_72,
      JSNum.isNaN]
  have a2 : acceptsHeartRate sameMinuteSecond = true := by
    simp [acceptsHeartRate, sameMinuteSecond, strictEqString, toNumber, stringToNumber_72,
      JSNum.isNaN]
  exact ⟨a1, a2, by decide, by decide,
    (C11_no_deduplication sampleLabel [] AnalyzeOutcome.rejected World.initial).2.2.2.1
      [] [] [] sameMinuteFirst sameMinuteSecond a1 a2⟩

/-- C12: from any host state, the effect calls the cycle once at once and
registers one interval of 30000 ms; each time the host fires that interval the
cycle is called once more, so after `n` firings there were `n + 1` triggers;
once the cleanup has cleared the interval, further firings trigger nothing, and
running the cleanup a second time changes nothing. -/
theorem C12_scheduler_triggers_until_cleared (h : Host) (n m : Nat) :
    (pollEffect h).2.triggers = h.triggers + 1 ∧
    (pollEffect h).2.intervals
      = h.intervals ++ [{ handle := (pollEffect h).1, delay := 30000 }] ∧
    (Host.ticks (pollEffect h).1 n (pollEffect h).2).triggers = h.triggers + 1 + n ∧
    (Host.ticks (pollEffect h).1 m
        (pollCleanup (pollEffect h).1
          (Host.ticks (pollEffect h).1 n (pollEffect h).2))).triggers
      = h.triggers + 1 + n ∧
    pollCleanup (pollEffect h).1
        (pollCleanup (pollEffect h).1 (Host.ticks (pollEffect h).1 n (pollEffect h).2))
      = pollCleanup (pollEffect h).1 (Host.ticks (pollEffect h).1 n (pollEffect h).2) := by
  have hreg := pollEffect_registers h
  have hn := ticks_registered (pollEffect h).1 n (pollEffect h).2 hreg
  refine ⟨rfl, rfl, ?_, ?_, ?_⟩
  · rw [hn]
    rfl
  · rw [pollCleanup, ticks_cleared _ m _ (clearInterval_unregisters _ _), hn]
    rfl
  · exact clearInterval_idem _ _

/-- C13: for a fixed rendering of time labels, two cycles on the same sequence
of readings commit the same heart-rate, oxygen and temperature series, whatever
the two previous states (series, analysis, presentation state) and whatever the
two outcomes of the analysis call. -/
theorem C13_classification_is_deterministic (label : JSValue → String)
    (rs : List RawReading) (net₁ net₂ : AnalyzeOutcome) (w₁ w₂ : World) :
    (runCycle label (Snapshot.readings rs) net₁ w₁).app.heartRateData
      = (runCycle label (Snapshot.readings rs) net₂ w₂).app.heartRateData ∧
    (runCycle label (Snapshot.readings rs) net₁ w₁).app.oxygenData
      = (runCycle label (Snapshot.readings rs) net₂ w₂).app.oxygenData ∧
    (runCycle label (Snapshot.readings rs) net₁ w₁).app.temperatureData
      = (runCycle label (Snapshot.readings rs) net₂ w₂).app.temperatureData := by
  obtain ⟨a1, a2, a3⟩ := runCycle_series label rs net₁ w₁
  obtain ⟨b1, b2, b3⟩ := runCycle_series label rs net₂ w₂
  rw [a1, a2, a3, b1, b2, b3]
  exact ⟨rfl, rfl, rfl⟩

/-- C14: starting from the initial state, after every finite sequence of
startTour, nextStep, prevStep and endTour the step is null, 0, 1 or 2.  In any
state, nextStep at step 2 closes the tour, prevStep at step 0 leaves the step at
0, and while the tour is closed nextStep opens it at step 1 and prevStep leaves
it closed. -/
theorem C14_tour_step_stays_valid (actions : List TourAction) (s : AppState) :
    ((runTour actions AppState.initial).tourStep = none ∨
      (runTour actions AppState.initial).tourStep = some 0 ∨
      (runTour actions AppState.initial).tourStep = some 1 ∨
      (runTour actions AppState.initial).tourStep = some 2) ∧
    validTourStep (runTour actions AppState.initial).tourStep = true ∧
    (s.tourStep = some 2 → (nextStep s).tourStep = none) ∧
    (s.tourStep = some 0 → (prevStep s).tourStep = some 0) ∧
    (s.tourStep = none → (nextStep s).tourStep = some 1) ∧
    (s.tourStep = none → (prevStep s).tourStep = none) := by
  have hv : validTourStep (runTour actions AppState.initial).tourStep = true :=
    validTourStep_runTour actions AppState.initial rfl
  refine ⟨(validTourStep_iff _).1 hv, hv, ?_, ?_, ?_, ?_⟩ <;>
    intro h <;>
    simp [nextStep, prevStep, endTour, setTourStep, h, tourStepToNumber, tourContentLength]

/-- C15: every value of the committed temperature series is a number that is
not negative, for every input.  When the value of a reading is a minus sign
directly followed by a run of digits and dots and `°C`, the point carries
`parseFloat` of the run alone, without the sign; for `-5.2°C 40%RH` that is
5.2. -/
theorem C15_temperature_values_are_non_negative (label : JSValue → String)
    (rs : List RawReading) (net : AnalyzeOutcome) (w : World) :
    (∀ p ∈ (runCycle label (Snapshot.readings rs) net w).app.temperatureData,
      ∃ x, p.value = JSValue.num x ∧ x.isNonNegative = true) ∧
    (∀ (d : RawReading) (s : String) (cap post : List Char),
      d.value = JSValue.str s → s.toList = '-' :: (cap ++ '°' :: 'C' :: post) →
      cap ≠ [] → (∀ c ∈ cap, isDigitOrDot c = true) →
      tempPoint label d
        = { time := label d.timestamp, value := JSValue.num (parseFloat cap) }) ∧
    (∀ ts : JSValue,
      temp label
          [{ sensor_type := .str "temp_humidity", value := .str "-5.2°C 40%RH",
             timestamp := ts }]
        = [{ time := label ts, value := JSValue.num (JSNum.fin 5.2) }]) := by
  obtain ⟨_, _, h3⟩ := runCycle_series label rs net w
  rw [h3]
  refine ⟨fun p hp => temperature_value_nonneg label rs p hp, ?_, ?_⟩
  · intro d s cap post hs hlist hne hall
    have hm : tempPatternExec d.value = some cap := by
      rw [hs]
      show regexExec s.toList = some cap
      rw [hlist]
      exact regexExec_after_minus cap post hne hall
    simp [tempPoint, hm]
  · intro ts
    have h : tempPatternExec (JSValue.str "-5.2°C 40%RH") = some ['5', '.', '2'] := by
      decide
    simp [temp, tempPoint, strictEqString, h, parseFloat_5_2, typeofIsNumber, jsIsNaN,
      toNumber, JSNum.isNaN]

/-- C16: for every state and each of the three card names, toggleStar negates
the flag of that card, leaves the two other flags and the rest of the state
unchanged, and applied twice gives back the original state. -/
theorem C16_toggleStar_is_a_framed_involution (s : AppState) (cardName : CardName) :
    (toggleStar cardName s).favoritedStars.get cardName
      = !s.favoritedStars.get cardName ∧
    (∀ other : CardName, other ≠ cardName →
      (toggleStar cardName s).favoritedStars.get other = s.favoritedStars.get other) ∧
    toggleStar cardName s = { s with favoritedStars := (toggleStar cardName s).favoritedStars } ∧
    toggleStar cardName (toggleStar cardName s) = s := by
  refine ⟨?_, ?_, rfl, ?_⟩
  · cases cardName <;> rfl
  · intro other hne
    cases cardName <;> cases other <;> first | rfl | exact absurd rfl hne
  · cases cardName <;>
      simp [toggleStar, FavoritedStars.get, FavoritedStars.set]

end Nomi
